import Mathlib

/-!
Verification of the Melodelete auto-delete engine against its specification.

This file shallowly embeds the retention-policy evaluator, the deletion
batching engine, the rate-limit tracker and the scan orchestrator of
`melodelete.py`, together with the policy store of `config.py`, and proves
or refutes the specification's claims about them.

Conventions of the embedding:
* Timestamps are integers, measured in minutes (the unit of
  `time_threshold`); `datetime.now(timezone.utc)` becomes an explicit
  `now : Int` parameter and `timedelta(minutes=t)` subtracts `t`.
* A channel's message history is a `List Message`, ordered oldest first,
  matching `channel.history(limit=None, oldest_first=True)`; the
  `before=time_cutoff` variant is the corresponding `filter`.
* Python `None`-able ints become `Option` values.
* The outcomes of remote API calls (success, not-found, client-side
  rejection, generic HTTP failure) are supplied by outcome functions, so
  the deletion functions become pure trace builders.
-/

/-- A Discord message as seen by the engine: identifier, creation
timestamp (minutes), pinned flag. -/
structure Message where
  id : Nat
  created_at : Int
  pinned : Bool
deriving DecidableEq, Repr

/-- Embedding of `get_channel_deletable_messages` (melodelete.py, lines
73-85). `now` stands for `datetime.now(timezone.utc)`. Note that the
source guards the two-criteria branch with `if max_messages:`, which is
false both for `None` and for `0` (Python truthiness), while the
max-only branch uses `is not None` and then slices `[:-max_messages]`,
which is empty for `max_messages == 0`. -/
def get_channel_deletable_messages (now : Int) (history : List Message)
    (time_threshold : Option Int) (max_messages : Option Nat) : List Message :=
  match time_threshold with
  | some t =>
    let time_cutoff := now - t
    match max_messages with
    | some n =>
      if n ≠ 0 then
        -- both criteria: position among unpinned messages, or age
        let messages := history.filter fun m => !m.pinned
        (messages.enum.filter fun im =>
          decide ((im.1 : Int) < (messages.length : Int) - (n : Int))
            || decide (im.2.created_at < time_cutoff)).map Prod.snd
      else
        history.filter fun m => decide (m.created_at < time_cutoff) && !m.pinned
    | none =>
      history.filter fun m => decide (m.created_at < time_cutoff) && !m.pinned
  | none =>
    match max_messages with
    | some n =>
      -- `[:-n]`: empty for n = 0, otherwise drops the newest n messages
      let messages := history.filter fun m => !m.pinned
      if n = 0 then [] else messages.take (messages.length - n)
    | none => []

/-- Modelled from the spec: the claimed both-criteria result — a message is
deletable iff it is not pinned and (it falls outside the newest
`max_messages` positions among the unpinned messages, or its age exceeds
`time_threshold`) — stated without any truthiness guard on `max_messages`. -/
def claimedBothCriteria (now : Int) (history : List Message)
    (time_threshold : Int) (max_messages : Nat) : List Message :=
  let messages := history.filter fun m => !m.pinned
  (messages.enum.filter fun im =>
    decide ((im.1 : Int) < (messages.length : Int) - (max_messages : Int))
      || decide (im.2.created_at < (now - time_threshold))).map Prod.snd

/-- The retention policy stored for one channel (config.py): the two
optional retention fields read by the engine. `set_channel` pops both
keys and stores only the ones provided, so a policy record is fully
described by this pair. -/
structure ChannelPolicy where
  time_threshold : Option Int
  max_messages : Option Nat
deriving DecidableEq, Repr

/-- Python exception classes that the embedded code can raise. -/
inductive PyError where
  | attributeError
  | typeError
deriving DecidableEq, Repr

deriving instance DecidableEq for Except

/-- The mutable state of `config.Config` (config.py). `channels` is the
insertion-ordered dict mapping channel IDs to policies (after
`migrate_channel_settings`); `rate_limit` is `none` while the Python
attribute `self.rate_limit` does not exist yet (it is first created by
`set_rate_limit`, not by `__init__`). -/
structure Config where
  channels : List (Nat × ChannelPolicy)
  bulk_delete_min : Nat
  scan_interval : Nat
  rate_limit : Option Rat
deriving DecidableEq, Repr

/-- Embedding of `Config.__init__` + `load_config` (config.py, lines
50-77): the file contents become parameters; no `rate_limit` attribute
is assigned. -/
def Config.init (channels : List (Nat × ChannelPolicy))
    (bulk_delete_min scan_interval : Nat) : Config :=
  { channels := channels, bulk_delete_min := bulk_delete_min,
    scan_interval := scan_interval, rate_limit := none }

/-- Embedding of `Config.get_channels` (config.py, lines 84-87): the dict
keys, i.e. the configured channel IDs in insertion order. -/
def Config.get_channels (c : Config) : List Nat :=
  c.channels.map Prod.fst

/-- Embedding of `Config.get_channel_config` (config.py, lines 89-92). -/
def Config.get_channel_config (c : Config) (channel_id : Nat) : Option ChannelPolicy :=
  (c.channels.find? fun p => p.1 == channel_id).map Prod.snd

/-- Embedding of `Config.set_channel` (config.py, lines 134-155): if the
channel is absent a fresh record is inserted at the end (dict insertion
order); then both retention keys are popped and the provided ones are
stored, so the policy becomes exactly `⟨time_threshold, max_messages⟩`. -/
def Config.set_channel (c : Config) (channel_id : Nat)
    (time_threshold : Option Int) (max_messages : Option Nat) : Config :=
  let policy : ChannelPolicy :=
    { time_threshold := time_threshold, max_messages := max_messages }
  if (c.get_channel_config channel_id).isNone then
    { c with channels := c.channels ++ [(channel_id, policy)] }
  else
    { c with channels :=
        c.channels.map fun p => if p.1 = channel_id then (p.1, policy) else p }

/-- Embedding of `Config.clear_channel` (config.py, lines 157-168):
`del` with `KeyError` swallowed, i.e. idempotent removal. -/
def Config.clear_channel (c : Config) (channel_id : Nat) : Config :=
  { c with channels := c.channels.filter fun p => p.1 != channel_id }

/-- Embedding of `Config.get_rate_limit` (config.py, lines 170-172):
reading `self.rate_limit` before it was ever assigned raises
`AttributeError`. -/
def Config.get_rate_limit (c : Config) : Except PyError Rat :=
  match c.rate_limit with
  | none => .error .attributeError
  | some r => .ok r

/-- Embedding of `Config.set_rate_limit` (config.py, lines 174-176). -/
def Config.set_rate_limit (c : Config) (rate_limit : Rat) : Config :=
  { c with rate_limit := some rate_limit }

/-- Embedding of `Config.get_bulk_delete_min` (config.py, lines 178-182). -/
def Config.get_bulk_delete_min (c : Config) : Nat :=
  c.bulk_delete_min

/-- Embedding of `Config.get_scan_interval` (config.py, lines 191-193). -/
def Config.get_scan_interval (c : Config) : Nat :=
  c.scan_interval

/-- Embedding of `Config.set_scan_interval` (config.py, lines 195-199). -/
def Config.set_scan_interval (c : Config) (scan_interval : Nat) : Config :=
  { c with scan_interval := scan_interval }

/-- Embedding of `delete_old_messages` (melodelete.py, lines 159-183).
The first statement is `config.set_rate_limit(0)` (line 160). The scan
loop then iterates `config.get_channels()`, which after the dict
migration returns bare integer channel IDs (config.py, lines 84-87),
yet its body immediately subscripts each element as
`channel_config["id"]` (line 165) outside any `try`: with at least one
configured channel the first iteration raises `TypeError` before any
channel handle is resolved, and the exception propagates to the
caller. With no configured channels the loop body never runs,
`to_delete` stays empty, the deletion pass does nothing, and the call
returns normally. The returned `Config` is the state of the global
store when the call ends, normally or by exception. -/
def delete_old_messages (c0 : Config) :
    Config × Except PyError (List (Nat × List Message)) :=
  let c1 := c0.set_rate_limit 0
  match c1.get_channels with
  | [] => (c1, Except.ok [])
  | _ :: _ => (c1, Except.error PyError.typeError)

/-- Embedding of one iteration of the `on_ready` main loop (melodelete.py,
lines 205-208): run `delete_old_messages`; if it returns, the iteration
ends with `await asyncio.sleep(120)` — a hard-coded 120 seconds,
`config.get_scan_interval` is not consulted; if it raises, the
exception propagates out of `on_ready` and the sleep never runs. -/
def on_ready_cycle (c : Config) :
    Config × Except PyError (List (Nat × List Message) × Nat) :=
  match delete_old_messages c with
  | (c1, Except.ok to_delete) => (c1, Except.ok (to_delete, 120))
  | (c1, Except.error e) => (c1, Except.error e)

/-- One HTTP response header as the rate-limit tracker sees it: absent
(`KeyError` on subscripting), unparsable (`ValueError` from `int()` or
`float()`), or a parsed value. -/
inductive HeaderField (α : Type) where
  | missing
  | malformed
  | val (a : α)
deriving DecidableEq, Repr

/-- Embedding of the rate-limit tracker `on_request_end` (melodelete.py,
lines 39-55). A response is delete-class when its method is DELETE or
its URL path ends with `/bulk-delete`. The headers are
X-RateLimit-Remaining, X-RateLimit-Reset-After and X-RateLimit-Limit,
read in source order; `KeyError`, `ValueError` and `ZeroDivisionError`
are each caught with a warning, leaving the stored rate limit
unchanged. Reset-after is a float in the source, modelled as `Rat`. -/
def on_request_end (method : String) (url_path : String)
    (remaining : HeaderField Int) (reset_after : HeaderField Rat)
    (limit : HeaderField Int) (c : Config) : Config :=
  if method == "DELETE" || url_path.endsWith "/bulk-delete" then
    match remaining with
    | .val r =>
      if r = 0 then
        match reset_after, limit with
        | .val ra, .val l =>
          if l = 0 then c
          else c.set_rate_limit (ra / (l : Rat))
        | _, _ => c
      else c
    | _ => c
  else c

/-- An observable event of the deletion engine: the pacing pause, the two
kinds of outbound API call, and the log lines that distinguish the
exception handlers. -/
inductive Ev where
  | sleep
  | bulkCall (messages : List Message)
  | singleCall (m : Message)
  | logAlreadyGone
  | logBulkFallback
  | logSingleFailed
deriving DecidableEq, Repr

/-- Exceptions `message.delete()` can raise into `delete_message`
(discord.NotFound is a subclass of discord.HTTPException and is matched
first). -/
inductive SingleExc where
  | notFound
  | httpException
deriving DecidableEq, Repr

/-- Exceptions `channel.delete_messages(...)` can raise into
`delete_messages`. -/
inductive BulkExc where
  | notFound
  | clientException
  | httpException
deriving DecidableEq, Repr

/-- Embedding of `delete_message` (melodelete.py, lines 119-126): pacing
sleep, the single-delete call, then the matching `except` branch —
`NotFound` is logged as already gone, `HTTPException` as a failure; both
are swallowed, and the message is never retried. `sfate` supplies the
API outcome of the call. -/
def delete_message (sfate : Message → Option SingleExc) (m : Message) : List Ev :=
  Ev.sleep :: Ev.singleCall m ::
    match sfate m with
    | none => []
    | some SingleExc.notFound => [Ev.logAlreadyGone]
    | some SingleExc.httpException => [Ev.logSingleFailed]

/-- The chunking of `for i in range(0, len(messages), 100)` in
`delete_messages` (melodelete.py, lines 96-98). -/
def chunksOf100 (xs : List Message) : List (List Message) :=
  if h : xs = [] then []
  else xs.take 100 :: chunksOf100 (xs.drop 100)
termination_by xs.length
decreasing_by
  simp only [List.length_drop]
  have := List.length_pos.mpr h
  omega

/-- The non-chunking part of `delete_messages` (melodelete.py, lines
99-113), reached whenever the input holds at most 100 messages: nothing
for an empty input, otherwise pacing sleep and one bulk call, followed
by the matching `except` branch — `NotFound` is logged as already gone;
`ClientException` and `HTTPException` are logged and fall back to
deleting every message of the failed batch through `delete_message`. -/
def delete_messages_body (bfate : List Message → Option BulkExc)
    (sfate : Message → Option SingleExc) (messages : List Message) : List Ev :=
  if messages.isEmpty then []
  else
    Ev.sleep :: Ev.bulkCall messages ::
      match bfate messages with
      | none => []
      | some BulkExc.notFound => [Ev.logAlreadyGone]
      | some BulkExc.clientException =>
          Ev.logBulkFallback :: messages.flatMap (delete_message sfate)
      | some BulkExc.httpException =>
          Ev.logBulkFallback :: messages.flatMap (delete_message sfate)

/-- Embedding of `delete_messages` (melodelete.py, lines 94-113). The
source recurses on each 100-chunk; every chunk holds at most 100
messages, so each recursive call lands in the non-chunking branch,
captured by `delete_messages_body`. -/
def delete_messages (bfate : List Message → Option BulkExc)
    (sfate : Message → Option SingleExc) (messages : List Message) : List Ev :=
  if 100 < messages.length then
    (chunksOf100 messages).flatMap (delete_messages_body bfate sfate)
  else delete_messages_body bfate sfate messages

/-- The oldest-to-newest batching walk of
`delete_channel_deletable_messages` (melodelete.py, lines 140-153):
messages older than the 14-day cutoff are deleted individually at the
point they are encountered; the others accumulate in `batch`, which is
flushed through `delete_messages` whenever it reaches exactly 100
members, and once more at the end if nonempty. -/
def bulk_delete_walk (bfate : List Message → Option BulkExc)
    (sfate : Message → Option SingleExc) (time_cutoff : Int) :
    List Message → List Message → List Ev
  | [], batch =>
    if batch.length ≠ 0 then delete_messages bfate sfate batch else []
  | m :: rest, batch =>
    if m.created_at < time_cutoff then
      delete_message sfate m ++ bulk_delete_walk bfate sfate time_cutoff rest batch
    else
      if (batch ++ [m]).length = 100 then
        delete_messages bfate sfate (batch ++ [m]) ++
          bulk_delete_walk bfate sfate time_cutoff rest []
      else bulk_delete_walk bfate sfate time_cutoff rest (batch ++ [m])

/-- Embedding of `delete_channel_deletable_messages` (melodelete.py,
lines 134-156): below the configured `bulk_delete_min` every message
goes through the single-delete path; otherwise the oldest-first batching
walk runs with the 14-day bulk-delete cutoff (14 days = 20160 minutes in
the embedding's time unit). -/
def delete_channel_deletable_messages (bfate : List Message → Option BulkExc)
    (sfate : Message → Option SingleExc) (now : Int) (bulk_delete_min : Nat)
    (messages : List Message) : List Ev :=
  if bulk_delete_min ≤ messages.length then
    bulk_delete_walk bfate sfate (now - 14 * 24 * 60) messages []
  else
    messages.flatMap (delete_message sfate)

/-- The sizes of the bulk-delete calls in a trace, in order. -/
def bulkSizes (t : List Ev) : List Nat :=
  t.filterMap fun e =>
    match e with
    | Ev.bulkCall b => some b.length
    | _ => none

/-- The number of single-delete calls in a trace. -/
def singleCount (t : List Ev) : Nat :=
  (t.filter fun e =>
    match e with
    | Ev.singleCall _ => true
    | _ => false).length

/-- The batch sizes the claim predicts for `L` bulk-eligible messages:
full batches of 100 and one final partial batch. -/
def expectedBatchSizes (L : Nat) : List Nat :=
  List.replicate (L / 100) 100 ++ if L % 100 = 0 then [] else [L % 100]

/-- The concrete input of the claim's example: 250 bulk-eligible
(young, unpinned) messages. -/
def msgs250 : List Message :=
  (List.range 250).map fun i => ⟨i, 0, false⟩

/-- The single-delete calls of a trace: the messages deleted
individually, in call order. -/
def singleMsgs (t : List Ev) : List Message :=
  t.filterMap fun e =>
    match e with
    | Ev.singleCall m => some m
    | _ => none

/-- The bulk-delete calls of a trace: the batches, in call order. -/
def bulkBatches (t : List Ev) : List (List Message) :=
  t.filterMap fun e =>
    match e with
    | Ev.bulkCall b => some b
    | _ => none

/-- A concrete mixed deletable set (oldest first, at `now = 0`): three
messages older than the 14-day bulk-delete cutoff followed by seven
younger ones. -/
def msgs10 : List Message :=
  [⟨0, -30000, false⟩, ⟨1, -30000, false⟩, ⟨2, -30000, false⟩,
   ⟨3, 0, false⟩, ⟨4, 0, false⟩, ⟨5, 0, false⟩, ⟨6, 0, false⟩,
   ⟨7, 0, false⟩, ⟨8, 0, false⟩, ⟨9, 0, false⟩]

/-- Helper: the evaluator's two-criteria branch only selects messages from
the unpinned filtering of the history. -/
theorem mem_of_mem_enum_filter_map {p : Nat × Message → Bool} {l : List Message}
    {m : Message} (h : m ∈ (l.enum.filter p).map Prod.snd) : m ∈ l := by
  rcases List.mem_map.mp h with ⟨⟨i, x⟩, hx, rfl⟩
  have hmem : (i, x) ∈ l.enum := (List.mem_filter.mp hx).1
  have h2 := List.mem_enum_iff_getElem?.mp hmem
  rcases List.getElem?_eq_some.mp h2 with ⟨hlt, heq⟩
  exact heq ▸ List.getElem_mem hlt

/-- C7: for every history and every policy (any combination of
`time_threshold` and `max_messages`), the deletable set returned by
`get_channel_deletable_messages` never contains a pinned message. -/
theorem evaluator_never_returns_pinned (now : Int) (history : List Message)
    (time_threshold : Option Int) (max_messages : Option Nat) (m : Message)
    (h : m ∈ get_channel_deletable_messages now history time_threshold max_messages) :
    m.pinned = false := by
  unfold get_channel_deletable_messages at h
  cases time_threshold with
  | some t =>
    cases max_messages with
    | some n =>
      dsimp only at h
      by_cases hn : n ≠ 0
      · rw [if_pos hn] at h
        have hmem : m ∈ history.filter fun x => !x.pinned :=
          mem_of_mem_enum_filter_map h
        have := (List.mem_filter.mp hmem).2
        simpa using this
      · rw [if_neg hn] at h
        have := (List.mem_filter.mp h).2
        simp at this
        exact this.2
    | none =>
      simp only at h
      have := (List.mem_filter.mp h).2
      simp at this
      exact this.2
  | none =>
    cases max_messages with
    | some n =>
      simp only at h
      by_cases hn : n = 0
      · simp [hn] at h
      · rw [if_neg hn] at h
        have hmem : m ∈ history.filter fun x => !x.pinned := List.mem_of_mem_take h
        have := (List.mem_filter.mp hmem).2
        simpa using this
    | none => simp at h

/-- C7 witness at a concrete input. -/
theorem evaluator_never_returns_pinned_witness :
    (⟨0, 0, false⟩ : Message) ∈
        get_channel_deletable_messages 100 [⟨0, 0, false⟩] (some 50) none ∧
      (⟨0, 0, false⟩ : Message).pinned = false :=
  ⟨by decide,
   evaluator_never_returns_pinned 100 [⟨0, 0, false⟩] (some 50) none _ (by decide)⟩

/-- C2 counterexample: with `time_threshold = 50` and `max_messages = 0`,
the claim says an unpinned message at position 0 of 1 unpinned messages
falls outside the newest 0 positions and is thus deletable, but the code
treats `max_messages = 0` as falsy and only deletes by age, so a young
message survives. -/
theorem both_criteria_claim_fails_at_zero :
    get_channel_deletable_messages 100 [⟨0, 99, false⟩] (some 50) (some 0) ≠
      claimedBothCriteria 100 [⟨0, 99, false⟩] 50 0 := by decide

/-- C2 (amended): for `max_messages ≥ 1` the evaluator returns exactly the
claimed both-criteria set (unpinned, and outside the newest
`max_messages` positions among the unpinned messages or older than the
threshold); for `max_messages = 0` the policy degrades to pure
time-threshold filtering. -/
theorem both_criteria_amended (now t : Int) (history : List Message) (n : Nat)
    (hn : n ≠ 0) :
    get_channel_deletable_messages now history (some t) (some n) =
        claimedBothCriteria now history t n ∧
      get_channel_deletable_messages now history (some t) (some 0) =
        history.filter fun m => decide (m.created_at < now - t) && !m.pinned := by
  constructor
  · unfold get_channel_deletable_messages claimedBothCriteria
    simp [hn]
  · unfold get_channel_deletable_messages
    simp

/-- C2 (amended) witness at a concrete input. -/
theorem both_criteria_amended_witness :
    (3 : Nat) ≠ 0 ∧
      (get_channel_deletable_messages 100 [⟨0, 99, false⟩] (some 50) (some 3) =
          claimedBothCriteria 100 [⟨0, 99, false⟩] 50 3 ∧
        get_channel_deletable_messages 100 [⟨0, 99, false⟩] (some 50) (some 0) =
          [⟨0, 99, false⟩].filter fun m => decide (m.created_at < 100 - 50) && !m.pinned) :=
  ⟨by decide, both_criteria_amended 100 50 [⟨0, 99, false⟩] 3 (by decide)⟩

/-- C3 counterexample: with only `max_messages = 0` set and one unpinned
message in the history, the claim demands `max(0, 1 - 0) = 1` message in
the result, but the Python slice `[:-0]` is empty, so the evaluator
returns no messages. -/
theorem max_only_claim_fails_at_zero :
    ¬ (get_channel_deletable_messages 0 [⟨0, 0, false⟩] none (some 0)).length =
        ([(⟨0, 0, false⟩ : Message)].filter fun m => !m.pinned).length - 0 := by
  decide

/-- C3 (amended): when only `max_messages = N` is set with `N ≥ 1` and the
history contains `M` unpinned messages, the result is exactly the
`max(0, M - N)` oldest unpinned messages (an initial segment of the
oldest-first unpinned list); for `N = 0` the result is empty (Python
`[:-0]`). -/
theorem max_only_amended (now : Int) (history : List Message) (n : Nat)
    (hn : n ≠ 0) :
    get_channel_deletable_messages now history none (some n) =
        (history.filter fun m => !m.pinned).take
          ((history.filter fun m => !m.pinned).length - n) ∧
      (get_channel_deletable_messages now history none (some n)).length =
        (history.filter fun m => !m.pinned).length - n ∧
      get_channel_deletable_messages now history none (some 0) = [] := by
  have h1 : get_channel_deletable_messages now history none (some n) =
      (history.filter fun m => !m.pinned).take
        ((history.filter fun m => !m.pinned).length - n) := by
    unfold get_channel_deletable_messages
    dsimp only
    rw [if_neg hn]
  refine ⟨h1, ?_, ?_⟩
  · rw [h1, List.length_take]
    exact Nat.min_eq_left (Nat.sub_le _ _)
  · unfold get_channel_deletable_messages
    simp

/-- C3 (amended) witness at a concrete input. -/
theorem max_only_amended_witness :
    (2 : Nat) ≠ 0 ∧
      (get_channel_deletable_messages 0
          [⟨0, 0, false⟩, ⟨1, 1, false⟩, ⟨2, 2, false⟩] none (some 2) =
          ([⟨0, 0, false⟩, ⟨1, 1, false⟩, ⟨2, 2, false⟩].filter
              fun m : Message => !m.pinned).take
            (([⟨0, 0, false⟩, ⟨1, 1, false⟩, ⟨2, 2, false⟩].filter
                fun m : Message => !m.pinned).length - 2) ∧
        (get_channel_deletable_messages 0
            [⟨0, 0, false⟩, ⟨1, 1, false⟩, ⟨2, 2, false⟩] none (some 2)).length =
          ([⟨0, 0, false⟩, ⟨1, 1, false⟩, ⟨2, 2, false⟩].filter
              fun m : Message => !m.pinned).length - 2 ∧
        get_channel_deletable_messages 0
            [⟨0, 0, false⟩, ⟨1, 1, false⟩, ⟨2, 2, false⟩] none (some 0) = []) :=
  ⟨by decide,
   max_only_amended 0 [⟨0, 0, false⟩, ⟨1, 1, false⟩, ⟨2, 2, false⟩] 2 (by decide)⟩

/-- Helper: the scan call, written out by cases on the configured
channels — the store state always ends as the input with the rate limit
reset, and the result is a `TypeError` exactly when some channel is
configured. -/
theorem delete_old_messages_eq (c : Config) :
    delete_old_messages c =
      (c.set_rate_limit 0,
        match c.channels with
        | [] => Except.ok []
        | _ :: _ => Except.error PyError.typeError) := by
  cases hc : c.channels with
  | nil => simp [delete_old_messages, Config.get_channels, Config.set_rate_limit, hc]
  | cons a l => simp [delete_old_messages, Config.get_channels, Config.set_rate_limit, hc]

/-- Helper: the scan call leaves the store as it found it, with only the
rate limit reset — also when it ends in a `TypeError`. -/
theorem delete_old_messages_fst (c : Config) :
    (delete_old_messages c).1 = c.set_rate_limit 0 := by
  rw [delete_old_messages_eq]

/-- C1 counterexample: with a configured channel (ID 42), the scan cycle
raises `TypeError` before resolving any channel handle, and afterwards
the channel's policy is still stored and the channel is still in the
channel set — no policy is ever removed from the store, contradicting
the claimed self-healing removal. -/
theorem unresolved_channel_not_removed :
    delete_old_messages (Config.init [(42, ⟨some 60, none⟩)] 100 2) =
        ((Config.init [(42, ⟨some 60, none⟩)] 100 2).set_rate_limit 0,
          Except.error PyError.typeError) ∧
      ((delete_old_messages
          (Config.init [(42, ⟨some 60, none⟩)] 100 2)).1).get_channel_config 42 =
        some ⟨some 60, none⟩ ∧
      ((delete_old_messages
          (Config.init [(42, ⟨some 60, none⟩)] 100 2)).1).get_channels = [42] := by
  decide

/-- C1 (amended): the orchestrator never removes a channel's policy. The
scan's only state change is resetting the rate-limit pacing value, so
every configured channel — resolvable or not — keeps its policy and
appears again in the next channel set; moreover, with any channel
configured the scan loop raises `TypeError` on its first iteration
(`channel_config["id"]` applied to the bare integer ID that
`get_channels` returns) before a single handle is resolved, so its
`logger.error` skip branch and the claimed removal site are both
unreachable; only with an empty store does the scan complete. -/
theorem scan_mutates_only_rate_limit (c : Config) :
    (delete_old_messages c).1 = c.set_rate_limit 0 ∧
      ((delete_old_messages c).1).get_channels = c.get_channels ∧
      (c.channels = [] → (delete_old_messages c).2 = Except.ok []) ∧
      (c.channels ≠ [] → (delete_old_messages c).2 =
        Except.error PyError.typeError) := by
  have h1 := delete_old_messages_fst c
  refine ⟨h1, by rw [h1]; rfl, ?_, ?_⟩
  · intro he
    rw [delete_old_messages_eq, he]
  · intro hne
    rw [delete_old_messages_eq]
    cases hc : c.channels with
    | nil => exact absurd hc hne
    | cons a l => rfl

/-- C1 (amended) witness: a one-channel store ends the scan in a
`TypeError`; an empty store lets it complete. -/
theorem scan_mutates_only_rate_limit_witness :
    ((Config.init [(7, ⟨some 60, none⟩)] 100 2).channels ≠ [] ∧
        (delete_old_messages (Config.init [(7, ⟨some 60, none⟩)] 100 2)).2 =
          Except.error PyError.typeError) ∧
      (Config.init [] 100 2).channels = [] ∧
        (delete_old_messages (Config.init [] 100 2)).2 = Except.ok [] :=
  ⟨⟨by decide,
    (scan_mutates_only_rate_limit (Config.init [(7, ⟨some 60, none⟩)] 100 2)).2.2.2
      (by decide)⟩,
   rfl,
   (scan_mutates_only_rate_limit (Config.init [] 100 2)).2.2.1 rfl⟩

/-- C8 counterexample: with an empty channel store and
`scan_interval = 5` the cycle completes and sleeps 120 seconds, not the
`max(5, 2) = 5` minutes (300 seconds) the claim demands. -/
theorem sleep_ignores_scan_interval :
    (on_ready_cycle (Config.init [] 100 5)).2 = Except.ok ([], 120) ∧
      ¬ (120 : Nat) = 60 * max (Config.get_scan_interval (Config.init [] 100 5)) 2 := by
  decide

/-- C8 (amended): every loop iteration that completes its scan sleeps
exactly 120 seconds (2 minutes), a hard-coded constant; the configured
scan interval is never consulted — changing it does not change the
iteration's outcome at all. -/
theorem inter_cycle_sleep_is_constant (c : Config) (n : Nat) :
    (∀ (td : List (Nat × List Message)) (s : Nat),
        (on_ready_cycle c).2 = Except.ok (td, s) → s = 120) ∧
      (on_ready_cycle (c.set_scan_interval n)).2 = (on_ready_cycle c).2 := by
  constructor
  · intro td s h
    unfold on_ready_cycle at h
    rw [delete_old_messages_eq] at h
    cases hc : c.channels with
    | nil =>
      rw [hc] at h
      simp at h
      omega
    | cons a l =>
      rw [hc] at h
      simp at h
  · unfold on_ready_cycle
    rw [delete_old_messages_eq, delete_old_messages_eq]
    cases hc : c.channels with
    | nil => rw [show (c.set_scan_interval n).channels = c.channels from rfl, hc]
    | cons a l => rw [show (c.set_scan_interval n).channels = c.channels from rfl, hc]

/-- C8 (amended) witness: the completed empty-store iteration sleeps 120
seconds. -/
theorem inter_cycle_sleep_is_constant_witness :
    (on_ready_cycle (Config.init [] 100 2)).2 = Except.ok ([], 120) ∧
      (120 : Nat) = 120 :=
  ⟨by decide,
   (inter_cycle_sleep_is_constant (Config.init [] 100 2) 7).1 [] 120 (by decide)⟩

/-- C9: a freshly constructed `Config` has no rate-limit value:
`get_rate_limit` raises `AttributeError` (and in particular does not
return 0); it becomes readable — with value 0 — once a scan cycle has
started, because `delete_old_messages` begins with `set_rate_limit(0)`,
before the channel loop and before any delete call. -/
theorem rate_limit_attribute_absent_until_cycle_start
    (channels : List (Nat × ChannelPolicy)) (b s : Nat) :
    (Config.init channels b s).get_rate_limit = .error .attributeError ∧
      ((delete_old_messages (Config.init channels b s)).1).get_rate_limit =
        .ok 0 := by
  refine ⟨rfl, ?_⟩
  rw [delete_old_messages_fst]
  rfl

/-- Helper: updating the policy of key `cid` in the channel dict commutes
with `find?` on any key, because the update preserves each entry's key. -/
theorem find_key_after_update (l : List (Nat × ChannelPolicy)) (cid k : Nat)
    (pol : ChannelPolicy) :
    (l.map fun p => if p.1 = cid then (p.1, pol) else p).find?
        (fun p => p.1 == k) =
      (l.find? fun p => p.1 == k).map fun p =>
        if p.1 = cid then (p.1, pol) else p := by
  induction l with
  | nil => rfl
  | cons a l ih =>
    have hfst : ((if a.1 = cid then (a.1, pol) else a) : Nat × ChannelPolicy).1 =
        a.1 := by split <;> rfl
    cases hbk : (a.1 == k) with
    | true =>
      simp only [List.map_cons, List.find?_cons, hfst, hbk, Option.map_some']
    | false =>
      simp only [List.map_cons, List.find?_cons, hfst, hbk, ih]

/-- C10: `set_channel` replaces the channel's stored policy wholesale: the
resulting policy record is exactly `⟨time_threshold, max_messages⟩` (so a
previously stored field passed as `None` is cleared), and every other
channel's stored policy is unchanged. -/
theorem set_channel_replaces_policy (c : Config) (channel_id : Nat)
    (time_threshold : Option Int) (max_messages : Option Nat) :
    (c.set_channel channel_id time_threshold max_messages).get_channel_config
        channel_id = some ⟨time_threshold, max_messages⟩ ∧
      ∀ other : Nat, other ≠ channel_id →
        (c.set_channel channel_id time_threshold max_messages).get_channel_config
            other = c.get_channel_config other := by
  unfold Config.set_channel
  by_cases habs : (c.get_channel_config channel_id).isNone
  · rw [if_pos habs]
    have hfind : c.channels.find? (fun p => p.1 == channel_id) = none := by
      unfold Config.get_channel_config at habs
      exact Option.map_eq_none.mp (Option.isNone_iff_eq_none.mp habs)
    constructor
    · unfold Config.get_channel_config
      dsimp only
      rw [List.find?_append, hfind]
      simp [List.find?_cons]
    · intro other hother
      unfold Config.get_channel_config
      dsimp only
      rw [List.find?_append]
      have : (channel_id == other) = false := by
        rw [beq_eq_false_iff_ne]
        exact fun h => hother h.symm
      simp [List.find?_cons, this]
  · rw [if_neg habs]
    have hfind : ∃ a, c.channels.find? (fun p => p.1 == channel_id) = some a := by
      unfold Config.get_channel_config at habs
      cases hf : c.channels.find? (fun p => p.1 == channel_id) with
      | none => exact absurd (by rw [hf]; rfl) habs
      | some a => exact ⟨a, rfl⟩
    constructor
    · rcases hfind with ⟨a, ha⟩
      have hkey : a.1 = channel_id := by
        have := List.find?_some ha
        simpa using this
      unfold Config.get_channel_config
      dsimp only
      rw [find_key_after_update, ha]
      simp [hkey]
    · intro other hother
      unfold Config.get_channel_config
      dsimp only
      rw [find_key_after_update]
      cases hob : c.channels.find? (fun p => p.1 == other) with
      | none => simp
      | some b =>
        have hkey : b.1 = other := by
          have := List.find?_some hob
          simpa using this
        have : ¬ b.1 = channel_id := by rw [hkey]; exact hother
        simp [this]

/-- C10 witness: setting channel 5 twice — the second call passing
`max_messages = None` — clears the previously stored `max_messages`, and
channel 7's policy is untouched. -/
theorem set_channel_replaces_policy_witness :
    ((((Config.init [(7, ⟨none, some 3⟩)] 100 2).set_channel 5 (some 60)
            (some 10)).set_channel 5 (some 120) none).get_channel_config 5 =
        some ⟨some 120, none⟩ ∧
      (7 : Nat) ≠ 5 ∧
      ((((Config.init [(7, ⟨none, some 3⟩)] 100 2).set_channel 5 (some 60)
            (some 10)).set_channel 5 (some 120) none).get_channel_config 7 =
        ((Config.init [(7, ⟨none, some 3⟩)] 100 2).set_channel 5 (some 60)
            (some 10)).get_channel_config 7)) :=
  ⟨(set_channel_replaces_policy _ 5 (some 120) none).1, by decide,
   (set_channel_replaces_policy _ 5 (some 120) none).2 7 (by decide)⟩

/-- C5: on a delete-class response, a zero remaining-calls counter sets
the pacing delay to `reset_after / limit`; a nonzero counter, a missing
or malformed header, or a zero limit divisor leaves the configuration
(and hence the previously stored delay) unchanged. -/
theorem rate_tracker_update (method url_path : String) (reset_after : Rat)
    (limit : Int) (c : Config)
    (hdel : (method == "DELETE" || url_path.endsWith "/bulk-delete") = true) :
    (limit ≠ 0 →
      on_request_end method url_path (.val 0) (.val reset_after) (.val limit) c =
        c.set_rate_limit (reset_after / (limit : Rat))) ∧
      (∀ r : Int, r ≠ 0 → ∀ (ra2 : HeaderField Rat) (l2 : HeaderField Int),
        on_request_end method url_path (.val r) ra2 l2 c = c) ∧
      (∀ (ra2 : HeaderField Rat) (l2 : HeaderField Int),
        on_request_end method url_path .missing ra2 l2 c = c ∧
        on_request_end method url_path .malformed ra2 l2 c = c) ∧
      on_request_end method url_path (.val 0) .missing (.val limit) c = c ∧
      on_request_end method url_path (.val 0) .malformed (.val limit) c = c ∧
      on_request_end method url_path (.val 0) (.val reset_after) .missing c = c ∧
      on_request_end method url_path (.val 0) (.val reset_after) .malformed c = c ∧
      on_request_end method url_path (.val 0) (.val reset_after) (.val 0) c = c := by
  refine ⟨?_, ?_, ?_, ?_, ?_, ?_, ?_, ?_⟩
  · intro hl
    unfold on_request_end
    rw [if_pos hdel]
    simp [hl]
  · intro r hr ra2 l2
    unfold on_request_end
    rw [if_pos hdel]
    simp [hr]
  · intro ra2 l2
    constructor <;> (unfold on_request_end; rw [if_pos hdel])
  · unfold on_request_end; rw [if_pos hdel]; simp
  · unfold on_request_end; rw [if_pos hdel]; simp
  · unfold on_request_end; rw [if_pos hdel]; simp
  · unfold on_request_end; rw [if_pos hdel]; simp
  · unfold on_request_end; rw [if_pos hdel]; simp

/-- C5 witness: the spec's example — remaining=0, limit=5,
reset_after=10.0 yields exactly 2.0 seconds; remaining=3 leaves the
stored delay unchanged. -/
theorem rate_tracker_update_witness :
    (("DELETE" == "DELETE" || "/api/v10/channels/1/messages/2".endsWith
        "/bulk-delete") = true) ∧
      ((5 : Int) ≠ 0 ∧
        on_request_end "DELETE" "/api/v10/channels/1/messages/2" (.val 0)
            (.val 10) (.val 5) (Config.init [] 100 2) =
          (Config.init [] 100 2).set_rate_limit (10 / ((5 : Int) : Rat))) ∧
      (Config.init [] 100 2).set_rate_limit (10 / ((5 : Int) : Rat)) =
        (Config.init [] 100 2).set_rate_limit 2 ∧
      ((3 : Int) ≠ 0 ∧
        on_request_end "DELETE" "/api/v10/channels/1/messages/2" (.val 3)
            (.val 10) (.val 5) (Config.init [] 100 2) = Config.init [] 100 2) := by
  have h := rate_tracker_update "DELETE" "/api/v10/channels/1/messages/2" 10 5
    (Config.init [] 100 2) (by decide)
  refine ⟨by decide, ⟨by decide, h.1 (by decide)⟩, ?_, by decide,
    h.2.1 3 (by decide) (.val 10) (.val 5)⟩
  have : ((10 : Rat) / ((5 : Int) : Rat)) = 2 := by norm_num
  rw [this]

/-- Helper: bulk-call sizes distribute over trace concatenation. -/
theorem bulkSizes_append (s t : List Ev) :
    bulkSizes (s ++ t) = bulkSizes s ++ bulkSizes t := by
  unfold bulkSizes
  exact List.filterMap_append s t _

/-- Helper: single-call counts add over trace concatenation. -/
theorem singleCount_append (s t : List Ev) :
    singleCount (s ++ t) = singleCount s + singleCount t := by
  unfold singleCount
  rw [List.filter_append, List.length_append]

/-- Helper: a single-delete trace contains no bulk call. -/
theorem delete_message_bulkSizes (sfate : Message → Option SingleExc)
    (m : Message) : bulkSizes (delete_message sfate m) = [] := by
  unfold delete_message bulkSizes
  cases h : sfate m with
  | none => rfl
  | some e => cases e <;> rfl

/-- Helper: a single-delete trace contains exactly one single call. -/
theorem delete_message_singleCount (sfate : Message → Option SingleExc)
    (m : Message) : singleCount (delete_message sfate m) = 1 := by
  unfold delete_message singleCount
  cases h : sfate m with
  | none => rfl
  | some e => cases e <;> rfl

/-- Helper: a successful bulk delete of a nonempty batch of at most 100
messages is one paced bulk call. -/
theorem delete_messages_ok (sfate : Message → Option SingleExc)
    (batch : List Message) (h1 : batch ≠ []) (h2 : batch.length ≤ 100) :
    delete_messages (fun _ => none) sfate batch =
      [Ev.sleep, Ev.bulkCall batch] := by
  unfold delete_messages
  rw [if_neg (by omega : ¬ 100 < batch.length)]
  unfold delete_messages_body
  rw [if_neg (by simpa [List.isEmpty_iff] using h1)]

/-- Helper: the single-delete path over a whole list makes one single call
per message and no bulk call. -/
theorem flatMap_delete_message_counts (sfate : Message → Option SingleExc)
    (l : List Message) :
    bulkSizes (l.flatMap (delete_message sfate)) = [] ∧
      singleCount (l.flatMap (delete_message sfate)) = l.length := by
  induction l with
  | nil => exact ⟨rfl, rfl⟩
  | cons a l ih =>
    rw [List.flatMap_cons]
    constructor
    · rw [bulkSizes_append, delete_message_bulkSizes, ih.1]
      rfl
    · rw [singleCount_append, delete_message_singleCount, ih.2, List.length_cons]
      omega

/-- Helper: the predicted batch sizes peel off a leading full batch. -/
theorem expectedBatchSizes_add_100 (n : Nat) :
    expectedBatchSizes (100 + n) = 100 :: expectedBatchSizes n := by
  unfold expectedBatchSizes
  have h1 : (100 + n) / 100 = n / 100 + 1 := by omega
  have h2 : (100 + n) % 100 = n % 100 := by omega
  rw [h1, h2, List.replicate_succ, List.cons_append]

/-- Helper: over bulk-eligible messages, the batching walk with successful
calls issues bulk calls of the predicted sizes and no single call. -/
theorem walk_all_eligible (sfate : Message → Option SingleExc)
    (time_cutoff : Int) :
    ∀ (msgs batch : List Message),
      (∀ m ∈ msgs, ¬ m.created_at < time_cutoff) → batch.length ≤ 99 →
      bulkSizes (bulk_delete_walk (fun _ => none) sfate time_cutoff msgs batch) =
          expectedBatchSizes (batch.length + msgs.length) ∧
        singleCount
          (bulk_delete_walk (fun _ => none) sfate time_cutoff msgs batch) = 0 := by
  intro msgs
  induction msgs with
  | nil =>
    intro batch helig hb
    unfold bulk_delete_walk
    by_cases h0 : batch.length = 0
    · rw [if_neg (by omega : ¬ batch.length ≠ 0)]
      constructor
      · show bulkSizes [] = expectedBatchSizes (batch.length + List.length [])
        rw [h0]
        decide
      · rfl
    · rw [if_pos h0]
      have hne : batch ≠ [] := by
        intro he
        exact h0 (by rw [he]; rfl)
      rw [delete_messages_ok sfate batch hne (by omega)]
      have hd : batch.length / 100 = 0 := Nat.div_eq_of_lt (by omega)
      have hm : batch.length % 100 = batch.length := Nat.mod_eq_of_lt (by omega)
      constructor
      · show [batch.length] = expectedBatchSizes (batch.length + List.length [])
        unfold expectedBatchSizes
        rw [List.length_nil, Nat.add_zero, hd, hm, if_neg h0]
        rfl
      · rfl
  | cons m rest ih =>
    intro batch helig hb
    unfold bulk_delete_walk
    rw [if_neg (helig m (List.mem_cons_self m rest))]
    have hL : (batch ++ [m]).length = batch.length + 1 := by simp
    have heligr : ∀ x ∈ rest, ¬ x.created_at < time_cutoff :=
      fun x hx => helig x (List.mem_cons_of_mem m hx)
    by_cases hc : (batch ++ [m]).length = 100
    · rw [if_pos hc]
      have h99 : batch.length = 99 := by omega
      have hne : batch ++ [m] ≠ [] := by simp
      rw [delete_messages_ok sfate _ hne (by omega)]
      have ihr := ih [] heligr (by simp)
      constructor
      · rw [bulkSizes_append, ihr.1]
        show [(batch ++ [m]).length] ++ _ = _
        rw [hc, List.length_nil, Nat.zero_add, List.singleton_append,
          List.length_cons, h99]
        have harith : 99 + (rest.length + 1) = 100 + rest.length := by omega
        rw [harith, expectedBatchSizes_add_100]
      · rw [singleCount_append, ihr.2]
        rfl
    · rw [if_neg hc]
      have ihr := ih (batch ++ [m]) heligr (by omega)
      constructor
      · rw [ihr.1, hL, List.length_cons]
        have harith : batch.length + 1 + rest.length =
            batch.length + (rest.length + 1) := by omega
        rw [harith]
      · exact ihr.2

/-- Helper: single-delete messages distribute over trace concatenation. -/
theorem singleMsgs_append (s t : List Ev) :
    singleMsgs (s ++ t) = singleMsgs s ++ singleMsgs t := by
  unfold singleMsgs
  exact List.filterMap_append s t _

/-- Helper: bulk batches distribute over trace concatenation. -/
theorem bulkBatches_append (s t : List Ev) :
    bulkBatches (s ++ t) = bulkBatches s ++ bulkBatches t := by
  unfold bulkBatches
  exact List.filterMap_append s t _

/-- Helper: a single-delete trace deletes exactly its message. -/
theorem delete_message_singleMsgs (sfate : Message → Option SingleExc)
    (m : Message) : singleMsgs (delete_message sfate m) = [m] := by
  unfold delete_message singleMsgs
  cases h : sfate m with
  | none => rfl
  | some e => cases e <;> rfl

/-- Helper: a single-delete trace contains no bulk batch. -/
theorem delete_message_bulkBatches (sfate : Message → Option SingleExc)
    (m : Message) : bulkBatches (delete_message sfate m) = [] := by
  unfold delete_message bulkBatches
  cases h : sfate m with
  | none => rfl
  | some e => cases e <;> rfl

/-- Helper: the batches of a successful one-batch bulk trace. -/
theorem bulkBatches_pair (b : List Message) :
    bulkBatches [Ev.sleep, Ev.bulkCall b] = [b] := rfl

/-- Helper: the sizes of a successful one-batch bulk trace. -/
theorem bulkSizes_pair (b : List Message) :
    bulkSizes [Ev.sleep, Ev.bulkCall b] = [b.length] := rfl

/-- Helper: the batching walk over an arbitrary mix of old and young
messages, with successful calls: the single deletes are exactly the
messages older than the cutoff, in encounter order; the bulk batches
concatenate to exactly the younger messages, in order; and the batch
sizes are full hundreds plus one final partial batch of the younger
count. -/
theorem walk_mixed (sfate : Message → Option SingleExc) (time_cutoff : Int) :
    ∀ (msgs batch : List Message), batch.length ≤ 99 →
      singleMsgs (bulk_delete_walk (fun _ => none) sfate time_cutoff msgs batch) =
          msgs.filter (fun m => decide (m.created_at < time_cutoff)) ∧
        (bulkBatches
            (bulk_delete_walk (fun _ => none) sfate time_cutoff msgs batch)).flatten =
          batch ++ msgs.filter (fun m => !decide (m.created_at < time_cutoff)) ∧
        bulkSizes (bulk_delete_walk (fun _ => none) sfate time_cutoff msgs batch) =
          expectedBatchSizes (batch.length +
            (msgs.filter (fun m => !decide (m.created_at < time_cutoff))).length) := by
  intro msgs
  induction msgs with
  | nil =>
    intro batch hb
    unfold bulk_delete_walk
    by_cases h0 : batch.length = 0
    · rw [if_neg (by omega : ¬ batch.length ≠ 0)]
      have hbe : batch = [] := List.length_eq_zero.mp h0
      subst hbe
      refine ⟨rfl, rfl, ?_⟩
      show bulkSizes [] = expectedBatchSizes (0 + 0)
      decide
    · rw [if_pos h0]
      have hne : batch ≠ [] := by
        intro he
        exact h0 (by rw [he]; rfl)
      rw [delete_messages_ok sfate batch hne (by omega)]
      have hd : batch.length / 100 = 0 := Nat.div_eq_of_lt (by omega)
      have hm : batch.length % 100 = batch.length := Nat.mod_eq_of_lt (by omega)
      refine ⟨rfl, by simp [bulkBatches_pair], ?_⟩
      show [batch.length] = expectedBatchSizes (batch.length + 0)
      unfold expectedBatchSizes
      rw [Nat.add_zero, hd, hm, if_neg h0]
      rfl
  | cons m rest ih =>
    intro batch hb
    unfold bulk_delete_walk
    by_cases hold : m.created_at < time_cutoff
    · rw [if_pos hold]
      have ihr := ih batch hb
      have hfp : List.filter (fun x => decide (x.created_at < time_cutoff))
          (m :: rest) =
          m :: List.filter (fun x => decide (x.created_at < time_cutoff)) rest := by
        simp [hold]
      have hfn : List.filter (fun x => !decide (x.created_at < time_cutoff))
          (m :: rest) =
          List.filter (fun x => !decide (x.created_at < time_cutoff)) rest := by
        simp [hold]
      refine ⟨?_, ?_, ?_⟩
      · rw [singleMsgs_append, delete_message_singleMsgs, ihr.1, hfp,
          List.singleton_append]
      · rw [bulkBatches_append, delete_message_bulkBatches, List.nil_append,
          ihr.2.1, hfn]
      · rw [bulkSizes_append, delete_message_bulkSizes, List.nil_append,
          ihr.2.2, hfn]
    · rw [if_neg hold]
      have hfp : List.filter (fun x => decide (x.created_at < time_cutoff))
          (m :: rest) =
          List.filter (fun x => decide (x.created_at < time_cutoff)) rest := by
        simp [hold]
      have hfn : List.filter (fun x => !decide (x.created_at < time_cutoff))
          (m :: rest) =
          m :: List.filter (fun x => !decide (x.created_at < time_cutoff)) rest := by
        simp [hold]
      have hL : (batch ++ [m]).length = batch.length + 1 := by simp
      by_cases hc : (batch ++ [m]).length = 100
      · rw [if_pos hc]
        have h99 : batch.length = 99 := by omega
        have hne2 : batch ++ [m] ≠ [] := by simp
        rw [delete_messages_ok sfate _ hne2 (by omega)]
        have ihr := ih [] (by simp)
        refine ⟨?_, ?_, ?_⟩
        · rw [singleMsgs_append, ihr.1, hfp]
          rfl
        · rw [bulkBatches_append, List.flatten_append, bulkBatches_pair,
            ihr.2.1, hfn]
          simp
        · rw [bulkSizes_append, bulkSizes_pair, hc, ihr.2.2, hfn,
            List.length_cons, List.length_nil, Nat.zero_add, h99]
          have harith : 99 + ((List.filter
              (fun x => !decide (x.created_at < time_cutoff)) rest).length + 1) =
              100 + (List.filter
                (fun x => !decide (x.created_at < time_cutoff)) rest).length := by
            omega
          rw [harith, expectedBatchSizes_add_100, List.singleton_append]
      · rw [if_neg hc]
        have ihr := ih (batch ++ [m]) (by omega)
        refine ⟨?_, ?_, ?_⟩
        · rw [ihr.1, hfp]
        · rw [ihr.2.1, hfn, List.append_assoc, List.singleton_append]
        · rw [ihr.2.2, hL, hfn, List.length_cons]
          congr 1
          omega

/-- C4: (1) below `bulk_delete_min` every message is deleted through the
single-delete path, with one single call per message and no bulk call;
(2) at or above the threshold, over bulk-eligible (younger than 14 days)
messages the engine issues bulk calls of exactly the predicted sizes —
full batches of 100 flushed as they fill and one final partial batch —
and no single call; (3) in particular 250 bulk-eligible messages with
`bulk_delete_min = 100` produce exactly the bulk calls 100, 100, 50 and
zero single deletes; (4) for an arbitrary mix of old and young messages
at or above the threshold, each message older than 14 days is deleted by
an individual call at the point it is encountered (the single deletes
are exactly the old messages, in order), while the others accumulate
into batches that concatenate to exactly the young messages, flushed at
100 with a final partial flush; (5) in particular 3 old messages
followed by 7 young ones with `bulk_delete_min = 5` give 3 individual
deletes of the old ones and one bulk call of 7. -/
theorem batching_call_structure (now : Int) (bulk_delete_min : Nat)
    (messages : List Message) :
    (messages.length < bulk_delete_min →
      delete_channel_deletable_messages (fun _ => none) (fun _ => none) now
          bulk_delete_min messages =
        messages.flatMap (delete_message (fun _ => none)) ∧
      bulkSizes (delete_channel_deletable_messages (fun _ => none) (fun _ => none)
          now bulk_delete_min messages) = [] ∧
      singleCount (delete_channel_deletable_messages (fun _ => none) (fun _ => none)
          now bulk_delete_min messages) = messages.length) ∧
    ((∀ m ∈ messages, ¬ m.created_at < now - 14 * 24 * 60) →
      bulk_delete_min ≤ messages.length →
      bulkSizes (delete_channel_deletable_messages (fun _ => none) (fun _ => none)
          now bulk_delete_min messages) = expectedBatchSizes messages.length ∧
      singleCount (delete_channel_deletable_messages (fun _ => none) (fun _ => none)
          now bulk_delete_min messages) = 0) ∧
    (bulkSizes (delete_channel_deletable_messages (fun _ => none) (fun _ => none)
        0 100 msgs250) = [100, 100, 50] ∧
      singleCount (delete_channel_deletable_messages (fun _ => none) (fun _ => none)
        0 100 msgs250) = 0) ∧
    (bulk_delete_min ≤ messages.length →
      singleMsgs (delete_channel_deletable_messages (fun _ => none) (fun _ => none)
          now bulk_delete_min messages) =
        messages.filter (fun m => decide (m.created_at < now - 14 * 24 * 60)) ∧
      (bulkBatches (delete_channel_deletable_messages (fun _ => none) (fun _ => none)
          now bulk_delete_min messages)).flatten =
        messages.filter (fun m => !decide (m.created_at < now - 14 * 24 * 60)) ∧
      bulkSizes (delete_channel_deletable_messages (fun _ => none) (fun _ => none)
          now bulk_delete_min messages) =
        expectedBatchSizes
          (messages.filter
            (fun m => !decide (m.created_at < now - 14 * 24 * 60))).length) ∧
    (singleMsgs (delete_channel_deletable_messages (fun _ => none) (fun _ => none)
        0 5 msgs10) =
        [⟨0, -30000, false⟩, ⟨1, -30000, false⟩, ⟨2, -30000, false⟩] ∧
      bulkSizes (delete_channel_deletable_messages (fun _ => none) (fun _ => none)
        0 5 msgs10) = [7] ∧
      singleCount (delete_channel_deletable_messages (fun _ => none) (fun _ => none)
        0 5 msgs10) = 3) := by
  refine ⟨?_, ?_, ?_, ?_, ?_⟩
  · intro h
    unfold delete_channel_deletable_messages
    rw [if_neg (by omega)]
    exact ⟨rfl, (flatMap_delete_message_counts _ _).1,
      (flatMap_delete_message_counts _ _).2⟩
  · intro helig hmin
    unfold delete_channel_deletable_messages
    rw [if_pos hmin]
    have h := walk_all_eligible (fun _ => none) (now - 14 * 24 * 60) messages []
      helig (by simp)
    simpa using h
  · have helig : ∀ m ∈ msgs250, ¬ m.created_at < (0 : Int) - 14 * 24 * 60 := by
      intro m hm
      rcases List.mem_map.mp hm with ⟨i, hi, rfl⟩
      dsimp only
      decide
    have hlen250 : msgs250.length = 250 := by simp [msgs250]
    have hmin : (100 : Nat) ≤ msgs250.length := by
      rw [hlen250]
      omega
    have h := walk_all_eligible (fun _ => none) ((0 : Int) - 14 * 24 * 60) msgs250
      [] helig (by simp)
    unfold delete_channel_deletable_messages
    rw [if_pos hmin]
    constructor
    · rw [h.1, List.length_nil, Nat.zero_add, hlen250]
      decide
    · exact h.2
  · intro hmin
    unfold delete_channel_deletable_messages
    rw [if_pos hmin]
    have h := walk_mixed (fun _ => none) (now - 14 * 24 * 60) messages [] (by simp)
    refine ⟨h.1, ?_, ?_⟩
    · rw [h.2.1, List.nil_append]
    · rw [h.2.2, List.length_nil, Nat.zero_add]
  · refine ⟨by decide, by decide, by decide⟩

/-- C4 witness: 5 deletable messages with `bulk_delete_min = 100` go
through the single-delete path: 5 single calls, zero bulk calls. -/
theorem batching_call_structure_witness :
    ((List.range 5).map fun i => (⟨i, 0, false⟩ : Message)).length < 100 ∧
      bulkSizes (delete_channel_deletable_messages (fun _ => none) (fun _ => none)
          0 100 ((List.range 5).map fun i => (⟨i, 0, false⟩ : Message))) = [] ∧
      singleCount (delete_channel_deletable_messages (fun _ => none) (fun _ => none)
          0 100 ((List.range 5).map fun i => (⟨i, 0, false⟩ : Message))) = 5 :=
  ⟨by decide,
   ((batching_call_structure 0 100 _).1 (by decide)).2.1,
   ((batching_call_structure 0 100 _).1 (by decide)).2.2⟩

/-- C6: a not-found outcome on a bulk call is only logged as already gone
(no fallback, nothing surfaced); a client-side rejection or a generic
HTTP failure retries every message of the failed batch through the
single-delete path; the single-delete path itself pauses before its one
call, never retries, tolerates not-found, and only logs its failures. -/
theorem bulk_error_fallback (bfate : List Message → Option BulkExc)
    (sfate : Message → Option SingleExc) (messages : List Message)
    (hne : messages ≠ []) (hlen : messages.length ≤ 100) :
    (bfate messages = some BulkExc.notFound →
      delete_messages bfate sfate messages =
        [Ev.sleep, Ev.bulkCall messages, Ev.logAlreadyGone]) ∧
      (bfate messages = some BulkExc.clientException ∨
        bfate messages = some BulkExc.httpException →
        delete_messages bfate sfate messages =
          Ev.sleep :: Ev.bulkCall messages :: Ev.logBulkFallback ::
            messages.flatMap (delete_message sfate)) ∧
      (∀ m : Message,
        (delete_message sfate m).take 2 = [Ev.sleep, Ev.singleCall m] ∧
        singleCount (delete_message sfate m) = 1 ∧
        (sfate m = some SingleExc.notFound →
          delete_message sfate m =
            [Ev.sleep, Ev.singleCall m, Ev.logAlreadyGone]) ∧
        (sfate m = some SingleExc.httpException →
          delete_message sfate m =
            [Ev.sleep, Ev.singleCall m, Ev.logSingleFailed])) := by
  have hbody : delete_messages bfate sfate messages =
      delete_messages_body bfate sfate messages := by
    unfold delete_messages
    rw [if_neg (by omega : ¬ 100 < messages.length)]
  have hfull : ¬ (messages.isEmpty = true) := by
    simpa [List.isEmpty_iff] using hne
  refine ⟨?_, ?_, ?_⟩
  · intro hb
    rw [hbody]
    unfold delete_messages_body
    rw [if_neg hfull, hb]
  · intro hb
    rw [hbody]
    unfold delete_messages_body
    rcases hb with hb | hb <;> rw [if_neg hfull, hb]
  · intro m
    refine ⟨?_, delete_message_singleCount sfate m, ?_, ?_⟩
    · unfold delete_message
      cases h : sfate m with
      | none => rfl
      | some e => cases e <;> rfl
    · intro hs
      unfold delete_message
      rw [hs]
    · intro hs
      unfold delete_message
      rw [hs]

/-- C6 witness: a one-message batch whose bulk call is rejected
client-side falls back to the single path, which finds the message
already gone and logs that without surfacing a failure. -/
theorem bulk_error_fallback_witness :
    [(⟨0, 0, false⟩ : Message)] ≠ [] ∧
      [(⟨0, 0, false⟩ : Message)].length ≤ 100 ∧
      delete_messages (fun _ => some BulkExc.clientException)
          (fun _ => some SingleExc.notFound) [⟨0, 0, false⟩] =
        Ev.sleep :: Ev.bulkCall [⟨0, 0, false⟩] :: Ev.logBulkFallback ::
          [(⟨0, 0, false⟩ : Message)].flatMap
            (delete_message fun _ => some SingleExc.notFound) ∧
      delete_message (fun _ => some SingleExc.notFound) (⟨0, 0, false⟩ : Message) =
        [Ev.sleep, Ev.singleCall ⟨0, 0, false⟩, Ev.logAlreadyGone] :=
  ⟨by decide, by decide,
   (bulk_error_fallback _ _ _ (by decide) (by decide)).2.1 (Or.inl rfl),
   ((bulk_error_fallback (fun _ => some BulkExc.clientException)
       (fun _ => some SingleExc.notFound) [⟨0, 0, false⟩] (by decide)
       (by decide)).2.2 ⟨0, 0, false⟩).2.2.1 rfl⟩
